import Mathlib

/-!
Verification development for the claude-bot (cb) session service.

The definitions below are shallow embeddings of the Go source:
  - pkg/models error codes and session statuses,
  - internal/session/manager.go (session lifecycle manager),
  - internal/session/claude.go (assistant process supervisor),
  - internal/repo/git_manager_new.go (workspace provisioner),
  - the db layer (queries.go) over the sessions schema
    (migrations/001_initial.sql with its UNIQUE constraints),
  - the stream-json result parsing of claude_stream.go.

Machine integers are modelled as Nat/Int, monetary cost as Rat, timestamps
as Nat seconds, fallible operations as Except.
-/

namespace CB

/-- Session status enum, mirroring the CHECK(status IN (...)) constraint of the
sessions table and the status string constants in pkg/models/types.go. -/
inductive SessionStatus where
  | starting
  | active
  | ending
  | ended
  | error
deriving DecidableEq

/-- Structured error codes, mirroring the ErrCode* constants of
pkg/models/types.go. -/
inductive CBErrorCode where
  | invalidCommand
  | sessionExists
  | noCredentials
  | claudeUnavailable
  | repoAccess
  | databaseError
  | encryptionError
  | sessionNotFound
  | unauthorized
  | invalidChannel
deriving DecidableEq

/-- An error surfaced by the manager or db layer: either a structured CBError
(models.NewCBError) or a plain wrapped error.  SQLite constraint violations
surface as wrapped errors carrying the violated column set, never as CBError
values: the Go code wraps them with fmt.Errorf. -/
inductive SMError where
  | cbError (code : CBErrorCode)
  | constraintViolation (field : String)
  | wrapped (msg : String)
deriving DecidableEq

/-! String helpers over the character list, mirroring the semantics of the Go
strings package functions used by the source. -/

/-- Go strings.HasPrefix on character lists. -/
def listStartsWith : List Char → List Char → Bool
  | _, [] => true
  | [], _ :: _ => false
  | a :: as, b :: bs => a == b && listStartsWith as bs

/-- Go strings.HasSuffix on character lists. -/
def listEndsWith (l suf : List Char) : Bool :=
  listStartsWith l.reverse suf.reverse

/-- Go strings.Contains on character lists: sub occurs contiguously in l. -/
def listHasSub (sub : List Char) : List Char → Bool
  | [] => sub.isEmpty
  | c :: rest => listStartsWith (c :: rest) sub || listHasSub sub rest

/-- Go strings.ContainsAny on character lists. -/
def listHasAnyOf (chars : List Char) (l : List Char) : Bool :=
  l.any (fun c => chars.contains c)

/-- Go strings.TrimSuffix on character lists. -/
def listTrimSuf (l suf : List Char) : List Char :=
  if listEndsWith l suf then l.take (l.length - suf.length) else l

/-- Go strings.Split(l, "/") on character lists (separator is one character,
which is all the source uses). -/
def splitOnSlash : List Char → List Char → List (List Char)
  | [], acc => [acc.reverse]
  | c :: cs, acc =>
    if c == '/' then acc.reverse :: splitOnSlash cs []
    else splitOnSlash cs (c :: acc)

/-- ValidateFeatureName from internal/session/manager.go: the feature name must
be usable as a git branch name.  The checks run in the order of the source. -/
def ValidateFeatureName (name : String) : Except String Unit :=
  if name = "" then
    Except.error "feature name cannot be empty"
  else if name.toList.contains ' ' then
    Except.error "feature name cannot contain spaces"
  else if listStartsWith name.toList ['-'] || listEndsWith name.toList ['-'] then
    Except.error "feature name cannot start or end with hyphen"
  else if listHasSub ['.', '.'] name.toList then
    Except.error "feature name cannot contain double dot"
  else if listHasAnyOf ['~', '^', ':', '?', '*', '[', '\\'] name.toList then
    Except.error "feature name contains invalid characters"
  else
    Except.ok ()

/-- extractRepoName from internal/repo/git_manager_new.go: strip a .git suffix
and keep the last slash-separated segment of the URL. -/
def extractRepoName (repoURL : String) : String :=
  let name := listTrimSuf repoURL.toList ['.', 'g', 'i', 't']
  let parts := splitOnSlash name []
  match parts.getLast? with
  | some p => List.asString p
  | none => "unknown-repo"

/-- Outcome of one SetupSessionRepo call with respect to the local repo cache:
either the remote was cloned into reposDir/name, or an existing clone at that
path was opened and fetched. -/
inductive SetupAction where
  | cloned
  | fetched
deriving DecidableEq

/-- Cache behaviour of SetupSessionRepo (git_manager_new.go): the clone cache is
keyed by extractRepoName(repoURL), i.e. by the directory name under reposDir.
Cloning happens only when no directory of that name exists; otherwise the
existing clone is opened and fetched. -/
def SetupSessionRepoCache (cache : List String) (repoURL : String) :
    SetupAction × List String :=
  let repoName := extractRepoName repoURL
  if cache.contains repoName then (SetupAction.fetched, cache)
  else (SetupAction.cloned, cache ++ [repoName])

/-- Runs SetupSessionRepo sequentially for a list of repository URLs, returning
the per-call cache action. -/
def runSetups (cache : List String) : List String → List SetupAction
  | [] => []
  | u :: us =>
    let r := SetupSessionRepoCache cache u
    r.fst :: runSetups r.snd us

/-! The sessions table and the db layer (queries.go), against the schema of
migrations/001_initial.sql. -/

/-- One row of the sessions table.  The columns id and created_at play no role
in the claims under study and are omitted; all other columns are kept. -/
structure SessionRow where
  sessionId : String
  workspaceId : String
  channelId : String
  threadTS : String
  repoURL : String
  branchName : String
  workTreePath : String
  modelName : String
  runningCost : Rat
  status : SessionStatus
  updatedAt : Nat
  endedAt : Option Nat
deriving DecidableEq

/-- The sessions table contents, in insertion order. -/
abbrev DBState := List SessionRow

deriving instance DecidableEq for Except

namespace DB

/-- db.GetSession: the first row whose session_id matches (queries.go). -/
def GetSession (db : DBState) (sid : String) : Option SessionRow :=
  db.find? (fun r => r.sessionId == sid)

/-- db.GetAllActiveSessions: SELECT ... WHERE status = active (queries.go). -/
def GetAllActiveSessions (db : DBState) : List SessionRow :=
  db.filter (fun r => r.status == SessionStatus.active)

/-- db.CheckBranchNameExists: SELECT COUNT(*) WHERE branch_name = ?, count > 0
(queries.go). -/
def CheckBranchNameExists (db : DBState) (branchName : String) : Bool :=
  db.any (fun r => r.branchName == branchName)

/-- db.UpdateSessionStatus (queries.go): UPDATE sessions SET status, bump
updated_at, and stamp ended_at only in the CASE WHEN status = ended; returns a
SessionNotFound CBError when no row was affected. -/
def UpdateSessionStatus (now : Nat) (db : DBState) (sid : String)
    (st : SessionStatus) : Except SMError DBState :=
  if db.any (fun r => r.sessionId == sid) then
    Except.ok (db.map (fun r =>
      if r.sessionId == sid then
        { r with
            status := st
            updatedAt := now
            endedAt := if st = SessionStatus.ended then some now else r.endedAt }
      else r))
  else
    Except.error (SMError.cbError CBErrorCode.sessionNotFound)

/-- db.UpdateSessionCost (queries.go): UPDATE sessions SET running_cost = ?,
updated_at = now WHERE session_id = ?.  The affected-row count is ignored. -/
def UpdateSessionCost (now : Nat) (db : DBState) (sid : String) (cost : Rat) :
    DBState :=
  db.map (fun r =>
    if r.sessionId == sid then { r with runningCost := cost, updatedAt := now }
    else r)

/-- db.UpdateSessionThread (queries.go): UPDATE sessions SET slack_thread_ts.
SQLite additionally enforces UNIQUE(slack_channel_id, slack_thread_ts) on the
updated table, failing the statement if the constraint would be violated. -/
def chanThreadOK : DBState → Bool
  | [] => true
  | r :: rest =>
    !(rest.any (fun q => q.channelId == r.channelId && q.threadTS == r.threadTS))
      && chanThreadOK rest

/-- db.CreateSession (queries.go): INSERT of a new sessions row, subject to the
schema constraints UNIQUE(branch_name), UNIQUE(work_tree_path) and
UNIQUE(slack_channel_id, slack_thread_ts).  A violated constraint fails the
insert with a plain (non-CBError) error naming the column set. -/
def CreateSession (db : DBState) (row : SessionRow) : Except SMError DBState :=
  if db.any (fun r => r.branchName == row.branchName) then
    Except.error (SMError.constraintViolation "branch_name")
  else if db.any (fun r => r.workTreePath == row.workTreePath) then
    Except.error (SMError.constraintViolation "work_tree_path")
  else if db.any (fun r =>
      r.channelId == row.channelId && r.threadTS == row.threadTS) then
    Except.error (SMError.constraintViolation "channel_thread")
  else
    Except.ok (db ++ [row])

/-- db.UpdateSessionThread with the UNIQUE(slack_channel_id, slack_thread_ts)
constraint check and the SessionNotFound outcome on zero affected rows. -/
def UpdateSessionThread (now : Nat) (db : DBState) (sid newThreadTS : String) :
    Except SMError DBState :=
  if db.any (fun r => r.sessionId == sid) then
    if chanThreadOK (db.map (fun r =>
        if r.sessionId == sid then
          { r with threadTS := newThreadTS, updatedAt := now }
        else r)) then
      Except.ok (db.map (fun r =>
        if r.sessionId == sid then
          { r with threadTS := newThreadTS, updatedAt := now }
        else r))
    else Except.error (SMError.constraintViolation "channel_thread")
  else
    Except.error (SMError.cbError CBErrorCode.sessionNotFound)

end DB

/-! The session lifecycle manager (internal/session/manager.go). -/

/-- models.CreateSessionRequest, restricted to the fields the manager reads. -/
structure CreateSessionRequest where
  workspaceId : String
  createdByUserId : Int
  channelId : String
  threadTS : String
  repoURL : String
  fromCommitish : String
  featureName : String
  modelName : String
deriving DecidableEq

namespace Manager

/-- validateCreateSessionRequest from manager.go, with the checks in source
order: required fields, the closed model set, feature-name validity, and the
reserved general channel. -/
def validateCreateSessionRequest (req : CreateSessionRequest) :
    Except SMError Unit :=
  if req.workspaceId = "" then
    Except.error (SMError.cbError CBErrorCode.invalidCommand)
  else if req.createdByUserId = 0 then
    Except.error (SMError.cbError CBErrorCode.invalidCommand)
  else if req.channelId = "" then
    Except.error (SMError.cbError CBErrorCode.invalidCommand)
  else if req.repoURL = "" then
    Except.error (SMError.cbError CBErrorCode.invalidCommand)
  else if req.fromCommitish = "" then
    Except.error (SMError.cbError CBErrorCode.invalidCommand)
  else if req.featureName = "" then
    Except.error (SMError.cbError CBErrorCode.invalidCommand)
  else if req.modelName = "" then
    Except.error (SMError.cbError CBErrorCode.invalidCommand)
  else if req.modelName ≠ "sonnet" ∧ req.modelName ≠ "opus" then
    Except.error (SMError.cbError CBErrorCode.invalidCommand)
  else
    match ValidateFeatureName req.featureName with
    | Except.error _ => Except.error (SMError.cbError CBErrorCode.invalidCommand)
    | Except.ok _ =>
      if req.channelId = "general" then
        Except.error (SMError.cbError CBErrorCode.invalidChannel)
      else
        Except.ok ()

/-- Manager.CreateSession from manager.go: validate, reject an existing branch
name with a SessionExists CBError, then insert the row with status starting, an
empty work-tree path placeholder, zero running cost, and the feature name as
branch name.  sid stands for the generated random session id, now for
CURRENT_TIMESTAMP.  newSessionRow is the row literal the manager builds. -/
def newSessionRow (now : Nat) (req : CreateSessionRequest) (sid : String) :
    SessionRow :=
  { sessionId := sid
    workspaceId := req.workspaceId
    channelId := req.channelId
    threadTS := req.threadTS
    repoURL := req.repoURL
    branchName := req.featureName
    workTreePath := ""
    modelName := req.modelName
    runningCost := 0
    status := SessionStatus.starting
    updatedAt := now
    endedAt := none }

def CreateSession (now : Nat) (db : DBState) (req : CreateSessionRequest)
    (sid : String) : Except SMError (DBState × SessionRow) :=
  match validateCreateSessionRequest req with
  | Except.error e => Except.error e
  | Except.ok _ =>
    if DB.CheckBranchNameExists db req.featureName then
      Except.error (SMError.cbError CBErrorCode.sessionExists)
    else
      match DB.CreateSession db (newSessionRow now req sid) with
      | Except.error e => Except.error e
      | Except.ok db2 => Except.ok (db2, newSessionRow now req sid)

/-- Manager.EndSession from manager.go.  The session must currently be active
(otherwise a SessionNotFound CBError).  The status is set to ending, then the
three teardown steps run: Claude process stop, commit-and-push, and work-tree
cleanup.  A failing step only logs (returned here as the log list) and never
aborts; finally the status is set to ended.  The Booleans inject failure into
the respective teardown steps. -/
def EndSession (now : Nat) (db : DBState) (sid : String)
    (stopFails commitFails cleanupFails : Bool) :
    DBState × List String × Except SMError Unit :=
  match DB.GetSession db sid with
  | none => (db, [], Except.error (SMError.cbError CBErrorCode.sessionNotFound))
  | some s =>
    if s.status ≠ SessionStatus.active then
      (db, [], Except.error (SMError.cbError CBErrorCode.sessionNotFound))
    else
      match DB.UpdateSessionStatus now db sid SessionStatus.ending with
      | Except.error e => (db, [], Except.error e)
      | Except.ok db1 =>
        let logs :=
          (if stopFails then ["Failed to stop Claude process"] else [])
            ++ (if commitFails then ["Failed to commit changes"] else [])
            ++ (if cleanupFails then ["Failed to cleanup work tree"] else [])
        match DB.UpdateSessionStatus now db1 sid SessionStatus.ended with
        | Except.error e => (db1, logs, Except.error e)
        | Except.ok db2 => (db2, logs, Except.ok ())

/-- One pass of cleanupIdleSessions over the listed sessions: each listed
session whose age now - updated_at strictly exceeds the idle timeout is ended
via EndSession (whose own error, if any, is only logged).  f supplies the
injected teardown failures per session id. -/
def sweepList (now idleTimeout : Nat) (f : String → Bool × Bool × Bool) :
    DBState → List SessionRow → DBState
  | db, [] => db
  | db, s :: rest =>
    sweepList now idleTimeout f
      (if idleTimeout < now - s.updatedAt then
        (EndSession now db s.sessionId (f s.sessionId).fst
          (f s.sessionId).snd.fst (f s.sessionId).snd.snd).fst
      else db)
      rest

/-- cleanupIdleSessions from manager.go: list the sessions returned by
db.GetAllActiveSessions and end the ones idle for longer than the configured
timeout. -/
def cleanupIdleSessions (now idleTimeout : Nat) (db : DBState)
    (f : String → Bool × Bool × Bool) : DBState :=
  sweepList now idleTimeout f db (DB.GetAllActiveSessions db)

end Manager

/-! The assistant process supervisor (internal/session/claude.go). -/

/-- Runtime status of one ClaudeProcess, mirroring the status strings used in
claude.go. -/
inductive ProcStatus where
  | running
  | stopping
  | stopped
  | error
deriving DecidableEq

/-- The supervisor registry: session id to tracked process status.  The Go map
is guarded by a mutex, so every registry operation observes and produces a
consistent registry state; concurrent calls are serialized. -/
abbrev Registry := List (String × ProcStatus)

namespace ClaudeProcess

/-- ClaudeProcess.Stop from claude.go: returns immediately when already
stopped; otherwise requests graceful shutdown and, failing that, force-kills,
so exactly one underlying process termination happens.  Result: final status
and the number of process terminations performed by this call. -/
def Stop (st : ProcStatus) : ProcStatus × Nat :=
  if st = ProcStatus.stopped then (ProcStatus.stopped, 0)
  else (ProcStatus.stopped, 1)

/-- ClaudeProcess.SendCommand from claude.go: fails with a ClaudeUnavailable
CBError unless the process status is running; otherwise delivers the line and
returns the next output unit (supplied here as resp). -/
def SendCommand (st : ProcStatus) (resp : String) : Except SMError String :=
  if st ≠ ProcStatus.running then
    Except.error (SMError.cbError CBErrorCode.claudeUnavailable)
  else
    Except.ok resp

end ClaudeProcess

namespace ClaudeManager

/-- ClaudeManager.GetSession from claude.go: registry lookup, SessionNotFound
when untracked. -/
def GetSession (procs : Registry) (sid : String) : Except SMError ProcStatus :=
  match procs.find? (fun p => p.fst == sid) with
  | none => Except.error (SMError.cbError CBErrorCode.sessionNotFound)
  | some p => Except.ok p.snd

/-- ClaudeManager.StopSession from claude.go: under the registry lock, an
untracked id fails with SessionNotFound; otherwise the tracking entry is
removed immediately and the process is stopped.  Result: new registry, call
result, and the number of process terminations performed. -/
def StopSession (procs : Registry) (sid : String) :
    Registry × Except SMError Unit × Nat :=
  match procs.find? (fun p => p.fst == sid) with
  | none => (procs, Except.error (SMError.cbError CBErrorCode.sessionNotFound), 0)
  | some p =>
    let procs2 := procs.filter (fun q => !(q.fst == sid))
    (procs2, Except.ok (), (ClaudeProcess.Stop p.snd).snd)

/-- ClaudeManager.SendCommand from claude.go: look the process up, then
delegate to ClaudeProcess.SendCommand. -/
def SendCommand (procs : Registry) (sid : String) (resp : String) :
    Except SMError String :=
  match GetSession procs sid with
  | Except.error e => Except.error e
  | Except.ok st => ClaudeProcess.SendCommand st resp

end ClaudeManager

/-- Manager.SendToSession from manager.go: fetch the session row
(SessionNotFound when absent), fail with a ClaudeUnavailable CBError unless the
row status is active, then delegate to the supervisor. -/
def Manager.SendToSession (db : DBState) (procs : Registry) (sid : String)
    (resp : String) : Except SMError String :=
  match DB.GetSession db sid with
  | none => Except.error (SMError.cbError CBErrorCode.sessionNotFound)
  | some s =>
    if s.status ≠ SessionStatus.active then
      Except.error (SMError.cbError CBErrorCode.claudeUnavailable)
    else
      ClaudeManager.SendCommand procs sid resp

/-! The stream-json result protocol (claude_stream.go) and its effect on the
stored session cost through SetupSessionAsync's cost callback. -/

/-- ClaudeMessage from claude_stream.go: one decoded line of the subprocess
stream-json output. -/
structure ClaudeMessage where
  type : String
  subtype : String
  sessionId : String
  result : String
  costUSD : Rat
  isError : Bool
  numTurns : Nat
deriving DecidableEq

/-- Effect of one parsed stream message on the sessions table, as wired in
SetupSessionAsync (manager.go): the cost callback runs db.UpdateSessionCost
with the message cost.  executeClaudeCommand (claude_stream.go) invokes the
cost callback only for type result with subtype success or error_max_turns and
only when cost_usd > 0. -/
def resultCostEffect (now : Nat) (sid : String) (db : DBState)
    (msg : ClaudeMessage) : DBState :=
  if msg.type == "result" then
    if msg.subtype == "success" then
      if 0 < msg.costUSD then DB.UpdateSessionCost now db sid msg.costUSD else db
    else if msg.subtype == "error_max_turns" then
      if 0 < msg.costUSD then DB.UpdateSessionCost now db sid msg.costUSD else db
    else db
  else db

/-- Cumulative effect on the sessions table of parsing a sequence of stream
messages for one session. -/
def processResultStream (now : Nat) (sid : String) (db : DBState) :
    List ClaudeMessage → DBState
  | [] => db
  | m :: ms => processResultStream now sid (resultCostEffect now sid db m) ms

/-- The session-info read of the running cost (Manager.GetSessionInfo reads the
running_cost column of the session row). -/
def sessionRunningCost (db : DBState) (sid : String) : Option Rat :=
  (DB.GetSession db sid).map (fun r => r.runningCost)

/-- A stream message that triggers the cost callback: a result message of
subtype success or error_max_turns with a positive cost figure. -/
def costBearing (m : ClaudeMessage) : Bool :=
  m.type == "result"
    && (m.subtype == "success" || m.subtype == "error_max_turns")
    && decide (0 < m.costUSD)

/-- The cost figure of the last cost-bearing result message of a stream, if
any: the figure UpdateSessionCost stores last. -/
def lastResultCost : List ClaudeMessage → Option Rat
  | [] => none
  | m :: ms =>
    match lastResultCost ms with
    | some c => some c
    | none => if costBearing m then some m.costUSD else none

/-! Bridging lemmas between the Go-style Boolean string helpers and the
corresponding Mathlib list predicates. -/

theorem listStartsWith_iff (p : List Char) : ∀ l : List Char,
    listStartsWith l p = true ↔ p <+: l := by
  induction p with
  | nil => intro l; simp [listStartsWith]
  | cons b bs ih =>
    intro l
    cases l with
    | nil => simp [listStartsWith]
    | cons a as =>
      rw [listStartsWith, Bool.and_eq_true, beq_iff_eq, ih as,
        List.cons_prefix_cons]
      constructor
      · rintro ⟨h1, h2⟩; exact ⟨h1.symm, h2⟩
      · rintro ⟨h1, h2⟩; exact ⟨h1.symm, h2⟩

theorem listEndsWith_iff (l s : List Char) :
    listEndsWith l s = true ↔ s <:+ l := by
  rw [listEndsWith, listStartsWith_iff, List.reverse_prefix]

theorem listHasSub_iff (sub : List Char) : ∀ l : List Char,
    listHasSub sub l = true ↔ sub <:+: l := by
  intro l
  induction l with
  | nil => simp [listHasSub, List.isEmpty_iff]
  | cons c rest ih =>
    rw [listHasSub, List.infix_cons_iff]
    simp [listStartsWith_iff, ih]

theorem listHasAnyOf_iff (cs l : List Char) :
    listHasAnyOf cs l = true ↔ ∃ c ∈ l, c ∈ cs := by
  simp [listHasAnyOf, List.any_eq_true]

/-- Claim C10: feature-name validation accepts my-feature and rejects -bad,
bad-, has space, a..b and a~b; in general any name containing a space, a
leading or trailing hyphen, a double-dot substring, or a character from the
~^:?*[\ class fails validation. -/
theorem validateFeatureName_spec :
    (ValidateFeatureName "my-feature").isOk = true
    ∧ (ValidateFeatureName "-bad").isOk = false
    ∧ (ValidateFeatureName "bad-").isOk = false
    ∧ (ValidateFeatureName "has space").isOk = false
    ∧ (ValidateFeatureName "a..b").isOk = false
    ∧ (ValidateFeatureName "a~b").isOk = false
    ∧ ∀ name : String,
        (' ' ∈ name.toList
            ∨ ['-'] <+: name.toList
            ∨ ['-'] <:+ name.toList
            ∨ ['.', '.'] <:+: name.toList
            ∨ ∃ c ∈ name.toList, c ∈ ['~', '^', ':', '?', '*', '[', '\\'])
          → (ValidateFeatureName name).isOk = false := by
  refine ⟨by decide, by decide, by decide, by decide, by decide, by decide, ?_⟩
  intro name h
  rw [ValidateFeatureName]
  split
  · rfl
  split
  · rfl
  split
  · rfl
  split
  · rfl
  split
  · rfl
  rename_i h1 h2 h3 h4 h5
  exfalso
  rcases h with h | h | h | h | h
  · exact h2 (by simpa using h)
  · rw [Bool.or_eq_true, listStartsWith_iff, listEndsWith_iff] at h3
    exact h3 (Or.inl h)
  · rw [Bool.or_eq_true, listStartsWith_iff, listEndsWith_iff] at h3
    exact h3 (Or.inr h)
  · rw [listHasSub_iff] at h4
    exact h4 h
  · rw [listHasAnyOf_iff] at h5
    exact h5 h

/-- Witness for C10: the general clause applied to a concrete bad name. -/
theorem validateFeatureName_spec_wit :
    (ValidateFeatureName "x y").isOk = false :=
  validateFeatureName_spec.2.2.2.2.2.2 "x y" (Or.inl (by decide))

/-! Cache behaviour of the workspace provisioner. -/

theorem runSetups_getElem (urls : List String) :
    ∀ (cache : List String) (j : Nat),
      (runSetups cache urls)[j]?
        = (urls[j]?).map (fun u =>
            if extractRepoName u ∈ cache ++ (urls.take j).map extractRepoName
            then SetupAction.fetched else SetupAction.cloned) := by
  induction urls with
  | nil => intro cache j; simp [runSetups]
  | cons u us ih =>
    intro cache j
    cases j with
    | zero =>
      simp only [runSetups, List.getElem?_cons_zero, Option.map_some',
        List.take_zero, List.map_nil, List.append_nil]
      simp only [SetupSessionRepoCache]
      by_cases hmem : extractRepoName u ∈ cache
      · rw [if_pos (by simpa [List.elem_iff] using hmem), if_pos hmem]
      · rw [if_neg (by simpa [List.elem_iff] using hmem), if_neg hmem]
    | succ j =>
      simp only [runSetups, List.getElem?_cons_succ]
      simp only [SetupSessionRepoCache]
      by_cases hmem : extractRepoName u ∈ cache
      · rw [if_pos (by simpa [List.elem_iff] using hmem)]
        rw [ih cache j]
        cases hv : us[j]? with
        | none => rfl
        | some v =>
          simp only [Option.map_some']
          have hsets : (extractRepoName v
                ∈ cache ++ (us.take j).map extractRepoName)
              ↔ (extractRepoName v
                ∈ cache ++ ((u :: us).take (j + 1)).map extractRepoName) := by
            simp only [List.take_succ_cons, List.map_cons, List.mem_append,
              List.mem_cons]
            constructor
            · rintro (h | h)
              · exact Or.inl h
              · exact Or.inr (Or.inr h)
            · rintro (h | h | h)
              · exact Or.inl h
              · exact Or.inl (h ▸ hmem)
              · exact Or.inr h
          by_cases hx : extractRepoName v
              ∈ cache ++ (us.take j).map extractRepoName
          · rw [if_pos hx, if_pos (hsets.mp hx)]
          · rw [if_neg hx, if_neg (fun hc => hx (hsets.mpr hc))]
      · rw [if_neg (by simpa [List.elem_iff] using hmem)]
        rw [ih (cache ++ [extractRepoName u]) j]
        have hsets :
            cache ++ [extractRepoName u] ++ (us.take j).map extractRepoName
              = cache ++ ((u :: us).take (j + 1)).map extractRepoName := by
          simp [List.append_assoc]
        rw [hsets]

theorem mem_take_iff_getElem? (l : List String) (j : Nat) (x : String) :
    x ∈ l.take j ↔ ∃ i : Nat, i < j ∧ l[i]? = some x := by
  rw [List.mem_iff_getElem?]
  constructor
  · rintro ⟨i, hi⟩
    rw [List.getElem?_take] at hi
    by_cases hij : i < j
    · rw [if_pos hij] at hi; exact ⟨i, hij, hi⟩
    · rw [if_neg hij] at hi; exact absurd hi (by simp)
  · rintro ⟨i, hij, hi⟩
    refine ⟨i, ?_⟩
    rw [List.getElem?_take, if_pos hij]
    exact hi

/-- Claim C9 (amended): the provisioner clone cache is keyed by
extractRepoName, the final slash-separated segment of the repository URL.
Within a run of setups, the URL at position j is cloned exactly when its repo
name is not in the initial cache and no earlier URL of the run has the same
repo name; otherwise the existing clone of that name is reused and fetched.
In particular distinct URLs sharing a final segment share one cached clone. -/
theorem setupRepo_cloneOncePerRepoName (cache : List String)
    (urls : List String) (j : Nat) (u : String) (hu : urls[j]? = some u) :
    (runSetups cache urls)[j]? = some SetupAction.cloned
      ↔ (extractRepoName u ∉ cache
          ∧ ∀ (i : Nat) (v : String), i < j → urls[i]? = some v
            → extractRepoName v ≠ extractRepoName u) := by
  rw [runSetups_getElem urls cache j, hu]
  simp only [Option.map_some']
  have hmemtake : extractRepoName u ∈ (urls.take j).map extractRepoName
      ↔ ∃ (i : Nat) (v : String), i < j ∧ urls[i]? = some v
          ∧ extractRepoName v = extractRepoName u := by
    rw [List.mem_map]
    constructor
    · rintro ⟨x, hx, hxeq⟩
      rcases (mem_take_iff_getElem? urls j x).mp hx with ⟨i, hij, hi⟩
      exact ⟨i, x, hij, hi, hxeq⟩
    · rintro ⟨i, v, hij, hi, heq⟩
      exact ⟨v, (mem_take_iff_getElem? urls j v).mpr ⟨i, hij, hi⟩, heq⟩
  by_cases hmem : extractRepoName u ∈ cache ++ (urls.take j).map extractRepoName
  · rw [if_pos hmem]
    simp only [List.mem_append] at hmem
    constructor
    · intro hcon; exact absurd hcon (by decide)
    · rintro ⟨hnc, hno⟩
      rcases hmem with hmem | hmem
      · exact absurd hmem hnc
      · rcases hmemtake.mp hmem with ⟨i, v, hij, hi, heq⟩
        exact absurd heq (hno i v hij hi)
  · rw [if_neg hmem]
    simp only [List.mem_append, not_or] at hmem
    refine ⟨fun _ => ⟨hmem.1, ?_⟩, fun _ => rfl⟩
    intro i v hij hi heq
    exact hmem.2 (hmemtake.mpr ⟨i, v, hij, hi, heq⟩)

/-- Witness for C9: a URL whose repo name is fresh gets cloned. -/
theorem setupRepo_cloneOncePerRepoName_wit :
    (runSetups [] ["https://github.com/alice/repo",
        "https://github.com/bob/other"])[1]? = some SetupAction.cloned :=
  (setupRepo_cloneOncePerRepoName [] ["https://github.com/alice/repo",
      "https://github.com/bob/other"] 1 "https://github.com/bob/other"
    (by decide)).mpr
    ⟨by decide, by
      intro i v hi hv
      have hi0 : i = 0 := Nat.lt_one_iff.mp hi
      subst hi0
      simp only [List.getElem?_cons_zero, Option.some.injEq] at hv
      subst hv
      decide⟩

/-- Counterexample for C9 as stated: two different repositories whose URLs end
in the same segment share one cached clone; the second distinct repository is
never cloned, its setup reuses and fetches the first clone. -/
theorem setupRepo_sharedCloneByName_cex :
    runSetups [] ["https://github.com/alice/repo", "https://github.com/bob/repo"]
        = [SetupAction.cloned, SetupAction.fetched]
      ∧ ("https://github.com/alice/repo" : String)
          ≠ "https://github.com/bob/repo"
      ∧ extractRepoName "https://github.com/alice/repo"
          = extractRepoName "https://github.com/bob/repo" := by
  refine ⟨by decide, by decide, by decide⟩

/-! Row-lookup lemmas for the db layer. -/

theorem getSession_cons (r : SessionRow) (rest : DBState) (sid : String) :
    DB.GetSession (r :: rest) sid
      = if r.sessionId = sid then some r else DB.GetSession rest sid := by
  by_cases hr : r.sessionId = sid
  · rw [if_pos hr, DB.GetSession, List.find?_cons_of_pos _ (by simpa using hr)]
  · rw [if_neg hr, DB.GetSession,
      List.find?_cons_of_neg _ (by simpa using hr), DB.GetSession]

/-- An UPDATE ... WHERE session_id = sid statement transforms the row the
session-id lookup returns and nothing else the lookup can observe. -/
theorem getSession_mapIf (sid : String) (g : SessionRow → SessionRow)
    (hg : ∀ r, (g r).sessionId = r.sessionId) (db : DBState) :
    DB.GetSession (db.map (fun r => if r.sessionId == sid then g r else r)) sid
      = (DB.GetSession db sid).map g := by
  induction db with
  | nil => rfl
  | cons r rest ih =>
    simp only [List.map_cons]
    by_cases hr : r.sessionId = sid
    · rw [show (if r.sessionId == sid then g r else r) = g r from by simp [hr]]
      rw [getSession_cons, if_pos (by rw [hg]; exact hr),
        getSession_cons, if_pos hr, Option.map_some']
    · rw [show (if r.sessionId == sid then g r else r) = r from by simp [hr]]
      rw [getSession_cons, if_neg hr, getSession_cons, if_neg hr, ih]

theorem any_sid_of_getSession_some (db : DBState) (sid : String)
    (s : SessionRow) (h : DB.GetSession db sid = some s) :
    db.any (fun r => r.sessionId == sid) = true := by
  rw [DB.GetSession] at h
  rw [List.any_eq_true]
  refine ⟨s, List.mem_of_find?_eq_some h, ?_⟩
  have hp := List.find?_some h
  simpa using hp

/-! Concrete rows and requests used by witnesses and counterexamples. -/

/-- A sample active session row. -/
def rowA : SessionRow :=
  { sessionId := "s1"
    workspaceId := "W1"
    channelId := "C1"
    threadTS := ""
    repoURL := "https://github.com/test/repo"
    branchName := "feat-a"
    workTreePath := "/worktrees/feat-a"
    modelName := "sonnet"
    runningCost := 0
    status := SessionStatus.active
    updatedAt := 0
    endedAt := none }

/-- A second, recently updated active session row. -/
def rowB : SessionRow :=
  { rowA with
      sessionId := "s2"
      channelId := "C2"
      branchName := "feat-b"
      workTreePath := "/worktrees/feat-b"
      updatedAt := 3990 }

/-- A session row still in the starting state. -/
def rowStarting : SessionRow :=
  { rowA with
      sessionId := "s3"
      channelId := "C3"
      branchName := "feat-c"
      workTreePath := "/worktrees/feat-c"
      status := SessionStatus.starting }

/-- A successful structured result message carrying the given cost figure. -/
def resultMsg (c : Rat) : ClaudeMessage :=
  { type := "result"
    subtype := "success"
    sessionId := "claude-abc"
    result := "done"
    costUSD := c
    isError := false
    numTurns := 1 }

/-! Claim C8: terminal statuses and the end timestamp. -/

/-- Counterexample for C8 as stated: driving a session to the terminal status
error does not stamp ended_at; the CASE in UpdateSessionStatus only fires for
the literal status ended. -/
theorem updateStatus_error_noStamp_cex :
    (DB.UpdateSessionStatus 100 [rowA] "s1" SessionStatus.error).toOption.map
        (fun db2 => db2.map (fun r => (r.status, r.endedAt)))
      = some [(SessionStatus.error, none)] := by
  decide

/-- Claim C8 (amended): an update-session-status call stamps the end timestamp
exactly when the new status is ended; updates to error or to any non-terminal
status leave the stored end timestamp unchanged. -/
theorem updateSessionStatus_endedAt (now : Nat) (db : DBState) (sid : String)
    (st : SessionStatus) (db2 : DBState)
    (h : DB.UpdateSessionStatus now db sid st = Except.ok db2) :
    (DB.GetSession db2 sid).map (fun r => r.endedAt)
      = (DB.GetSession db sid).map (fun r =>
          if st = SessionStatus.ended then some now else r.endedAt) := by
  rw [DB.UpdateSessionStatus] at h
  by_cases hany : db.any (fun r => r.sessionId == sid) = true
  · rw [if_pos hany] at h
    have hdb2 : db2 = db.map (fun r =>
        if r.sessionId == sid then
          { r with
              status := st
              updatedAt := now
              endedAt :=
                if st = SessionStatus.ended then some now else r.endedAt }
        else r) := by
      cases h; rfl
    rw [hdb2, getSession_mapIf sid (fun r =>
      { r with
          status := st
          updatedAt := now
          endedAt := if st = SessionStatus.ended then some now else r.endedAt })
      (fun r => rfl)]
    cases hfind : DB.GetSession db sid with
    | none => rfl
    | some r0 => rfl
  · rw [if_neg hany] at h
    cases h

/-- Witness for C8: updating the sample session to ended stamps the timestamp,
updating it to error does not. -/
theorem updateSessionStatus_endedAt_wit :
    ((DB.GetSession
        ((DB.UpdateSessionStatus 100 [rowA] "s1" SessionStatus.ended).toOption.getD [])
        "s1").map (fun r => r.endedAt) = some (some 100))
    ∧ ((DB.GetSession
        ((DB.UpdateSessionStatus 100 [rowA] "s1" SessionStatus.error).toOption.getD [])
        "s1").map (fun r => r.endedAt) = some none) := by
  constructor
  · have h := updateSessionStatus_endedAt 100 [rowA] "s1" SessionStatus.ended
      ((DB.UpdateSessionStatus 100 [rowA] "s1" SessionStatus.ended).toOption.getD [])
      rfl
    rw [h]; decide
  · have h := updateSessionStatus_endedAt 100 [rowA] "s1" SessionStatus.error
      ((DB.UpdateSessionStatus 100 [rowA] "s1" SessionStatus.error).toOption.getD [])
      rfl
    rw [h]; decide

/-! Claim C1: cost round-trip through the structured-result parsing. -/

theorem resultCostEffect_eq (now : Nat) (sid : String) (db : DBState)
    (m : ClaudeMessage) :
    resultCostEffect now sid db m
      = if costBearing m then DB.UpdateSessionCost now db sid m.costUSD
        else db := by
  rw [resultCostEffect, costBearing]
  by_cases h1 : m.type == "result"
  · by_cases h2 : m.subtype == "success"
    · by_cases h3 : 0 < m.costUSD
      · simp [h1, h2, h3]
      · simp [h1, h2, h3]
    · by_cases h2b : m.subtype == "error_max_turns"
      · by_cases h3 : 0 < m.costUSD
        · simp [h1, h2, h2b, h3]
        · simp [h1, h2, h2b, h3]
      · simp [h1, h2, h2b]
  · simp [h1]

theorem getSession_updateCost (now : Nat) (db : DBState) (sid : String)
    (c : Rat) :
    DB.GetSession (DB.UpdateSessionCost now db sid c) sid
      = (DB.GetSession db sid).map
          (fun r => { r with runningCost := c, updatedAt := now }) := by
  rw [DB.UpdateSessionCost,
    getSession_mapIf sid (fun r => { r with runningCost := c, updatedAt := now })
      (fun r => rfl)]

/-- Claim C1 (amended): after a sequence of structured result messages is
parsed for a session, the stored running cost read back for that session is
the cost figure of the LAST cost-bearing result message (UpdateSessionCost
overwrites the column), or the previously stored value when the stream carried
no cost-bearing result; it is not the sum of the per-message figures. -/
theorem costStream_lastWrite (now : Nat) (sid : String)
    (msgs : List ClaudeMessage) :
    ∀ (db : DBState) (s : SessionRow), DB.GetSession db sid = some s →
      sessionRunningCost (processResultStream now sid db msgs) sid
        = some ((lastResultCost msgs).getD s.runningCost) := by
  induction msgs with
  | nil =>
    intro db s hs
    rw [processResultStream, sessionRunningCost, hs]
    rfl
  | cons m ms ih =>
    intro db s hs
    rw [processResultStream]
    by_cases hc : costBearing m = true
    · have hs1 : DB.GetSession (resultCostEffect now sid db m) sid
          = some { s with runningCost := m.costUSD, updatedAt := now } := by
        rw [resultCostEffect_eq, if_pos hc, getSession_updateCost, hs,
          Option.map_some']
      rw [ih _ _ hs1, lastResultCost]
      cases hlast : lastResultCost ms with
      | some c => simp [hlast]
      | none => simp [hlast, hc]
    · have hs1 : DB.GetSession (resultCostEffect now sid db m) sid = some s := by
        rw [resultCostEffect_eq, if_neg hc]
        exact hs
      rw [ih _ _ hs1, lastResultCost]
      cases hlast : lastResultCost ms with
      | some c => simp [hlast]
      | none => simp [hlast, hc]

/-- Witness for C1 (amended): one cost-bearing result message of figure 0.002
leaves exactly 0.002 stored. -/
theorem costStream_lastWrite_wit :
    sessionRunningCost
        (processResultStream 9 "s1" [rowA] [resultMsg (2 / 1000)]) "s1"
      = some ((lastResultCost [resultMsg (2 / 1000)]).getD rowA.runningCost) :=
  costStream_lastWrite 9 "s1" [resultMsg (2 / 1000)] [rowA] rowA rfl

/-- Counterexample for C1 as stated: two result messages with cost figures
0.002 and 0.0035 leave 0.0035 stored, not the sum 0.0055 — UpdateSessionCost
overwrites the running cost rather than accumulating it. -/
theorem costStream_notSummed_cex :
    sessionRunningCost
        (processResultStream 9 "s1" [rowA]
          [resultMsg (2 / 1000), resultMsg (35 / 10000)]) "s1"
      = some (35 / 10000 : Rat)
    ∧ ((2 / 1000 : Rat) + 35 / 10000 = 55 / 10000)
    ∧ sessionRunningCost
        (processResultStream 9 "s1" [rowA]
          [resultMsg (2 / 1000), resultMsg (35 / 10000)]) "s1"
      ≠ some ((2 / 1000 : Rat) + 35 / 10000) := by
  have hb1 : costBearing (resultMsg (2 / 1000)) = true := by
    rw [costBearing, resultMsg]
    norm_num
  have hb2 : costBearing (resultMsg (35 / 10000)) = true := by
    rw [costBearing, resultMsg]
    norm_num
  have hval : sessionRunningCost
      (processResultStream 9 "s1" [rowA]
        [resultMsg (2 / 1000), resultMsg (35 / 10000)]) "s1"
      = some (35 / 10000 : Rat) := by
    rw [processResultStream, resultCostEffect_eq, if_pos hb1,
      processResultStream, resultCostEffect_eq, if_pos hb2,
      processResultStream, sessionRunningCost, getSession_updateCost,
      getSession_updateCost]
    rfl
  refine ⟨hval, by norm_num, ?_⟩
  rw [hval]
  intro heq
  rw [Option.some.injEq] at heq
  norm_num at heq

/-! Claim C5: branch-name uniqueness on session creation. -/

/-- A valid create request for feature feat-a in channel C10. -/
def reqA : CreateSessionRequest :=
  { workspaceId := "W1"
    createdByUserId := 7
    channelId := "C10"
    threadTS := ""
    repoURL := "https://github.com/test/repo"
    fromCommitish := "main"
    featureName := "feat-a"
    modelName := "sonnet" }

/-- A valid create request for a distinct feature feat-b in another channel. -/
def reqB : CreateSessionRequest :=
  { reqA with channelId := "C11", featureName := "feat-b" }

/-- Claim C5 (code evaluated at the failing input): the first create succeeds;
a second create with the SAME feature name fails with the SessionExists
CBError as specified; but a second create with a DISTINCT valid feature name
ALSO fails — both rows carry the empty work-tree-path placeholder, which the
schema declares UNIQUE, so the insert dies with a constraint violation instead
of succeeding. -/
theorem createSession_workTreePlaceholder_bug :
    (Manager.CreateSession 0 [] reqA "sid-a").isOk = true
    ∧ ((Manager.CreateSession 0 [] reqA "sid-a").toOption.map
        (fun p => Manager.CreateSession 5 p.fst reqA "sid-c"))
      = some (Except.error (SMError.cbError CBErrorCode.sessionExists))
    ∧ ((Manager.CreateSession 0 [] reqA "sid-a").toOption.map
        (fun p => Manager.CreateSession 5 p.fst reqB "sid-b"))
      = some (Except.error (SMError.constraintViolation "work_tree_path")) := by
  refine ⟨by decide, by decide, by decide⟩

/-! Claim C6: messages are only accepted by active sessions. -/

/-- The sample session row after ending. -/
def rowEnded : SessionRow := { rowA with status := SessionStatus.ended }

/-- Claim C6: sending to a session whose status is starting, ending, ended or
error always fails with a ClaudeUnavailable or SessionNotFound CBError (in
fact with ClaudeUnavailable, since the row exists); it never succeeds. -/
theorem sendToSession_rejectsNonActive (db : DBState) (procs : Registry)
    (sid resp : String) (s : SessionRow)
    (hs : DB.GetSession db sid = some s)
    (hstat : s.status = SessionStatus.starting
      ∨ s.status = SessionStatus.ending
      ∨ s.status = SessionStatus.ended
      ∨ s.status = SessionStatus.error) :
    ∃ c : CBErrorCode,
      Manager.SendToSession db procs sid resp
          = Except.error (SMError.cbError c)
        ∧ (c = CBErrorCode.claudeUnavailable
            ∨ c = CBErrorCode.sessionNotFound) := by
  have hne : s.status ≠ SessionStatus.active := by
    rcases hstat with h | h | h | h <;> rw [h] <;> intro hx <;> cases hx
  refine ⟨CBErrorCode.claudeUnavailable, ?_, Or.inl rfl⟩
  rw [Manager.SendToSession, hs]
  simp only [if_pos hne]

/-- Witness for C6: sending to the ended sample session fails with
ClaudeUnavailable. -/
theorem sendToSession_rejectsNonActive_wit :
    ∃ c : CBErrorCode,
      Manager.SendToSession [rowEnded] [] "s1" "hello"
          = Except.error (SMError.cbError c)
        ∧ (c = CBErrorCode.claudeUnavailable
            ∨ c = CBErrorCode.sessionNotFound) :=
  sendToSession_rejectsNonActive [rowEnded] [] "s1" "hello" rowEnded rfl
    (Or.inr (Or.inr (Or.inl rfl)))

/-! Claim C7: supervisor stop is idempotent. -/

/-- Claim C7: for a tracked running process, the first stop succeeds with
exactly one underlying process termination and removes the tracking entry; the
registry mutex serializes concurrent stops, so the other call runs second and
observes the well-defined SessionNotFound with zero further terminations and
no registry change.  Exactly one termination and one release happen in
total. -/
theorem stopSession_idempotent (procs : Registry) (sid : String)
    (p : String × ProcStatus)
    (hp : procs.find? (fun q => q.fst == sid) = some p)
    (hrun : p.snd = ProcStatus.running) :
    (ClaudeManager.StopSession procs sid).snd.fst = Except.ok ()
    ∧ (ClaudeManager.StopSession procs sid).snd.snd = 1
    ∧ (ClaudeManager.StopSession procs sid).fst.find?
        (fun q => q.fst == sid) = none
    ∧ ClaudeManager.StopSession (ClaudeManager.StopSession procs sid).fst sid
      = ((ClaudeManager.StopSession procs sid).fst,
          Except.error (SMError.cbError CBErrorCode.sessionNotFound), 0) := by
  have h1 : ClaudeManager.StopSession procs sid
      = (procs.filter (fun q => !(q.fst == sid)), Except.ok (), 1) := by
    obtain ⟨pid, pst⟩ := p
    cases hrun
    rw [ClaudeManager.StopSession, hp]
    rfl
  have hfilter : (procs.filter (fun q => !(q.fst == sid))).find?
      (fun q => q.fst == sid) = none := by
    cases hfind : (procs.filter (fun q => !(q.fst == sid))).find?
        (fun q => q.fst == sid) with
    | none => rfl
    | some q =>
      exfalso
      have hq := List.find?_some hfind
      have hqmem := List.mem_of_find?_eq_some hfind
      rw [List.mem_filter] at hqmem
      rw [hq] at hqmem
      exact absurd hqmem.2 (by decide)
  refine ⟨by rw [h1], by rw [h1], by rw [h1]; exact hfilter, ?_⟩
  rw [h1]
  rw [ClaudeManager.StopSession, hfilter]

/-- Witness for C7: the two stops on a singleton registry. -/
theorem stopSession_idempotent_wit :
    (ClaudeManager.StopSession [("s1", ProcStatus.running)] "s1").snd.fst
      = Except.ok ()
    ∧ (ClaudeManager.StopSession [("s1", ProcStatus.running)] "s1").snd.snd
      = 1
    ∧ (ClaudeManager.StopSession
        [("s1", ProcStatus.running)] "s1").fst.find?
          (fun q => q.fst == "s1") = none
    ∧ ClaudeManager.StopSession
        (ClaudeManager.StopSession [("s1", ProcStatus.running)] "s1").fst "s1"
      = ((ClaudeManager.StopSession [("s1", ProcStatus.running)] "s1").fst,
          Except.error (SMError.cbError CBErrorCode.sessionNotFound), 0) :=
  stopSession_idempotent [("s1", ProcStatus.running)] "s1"
    ("s1", ProcStatus.running) rfl rfl

/-! Claim C3: EndSession always reaches the ended state. -/

/-- The cumulative row change EndSession performs on the session being ended:
status ended, updated_at bumped, end timestamp stamped. -/
def endStamp (now : Nat) (r : SessionRow) : SessionRow :=
  { r with
      status := SessionStatus.ended
      updatedAt := now
      endedAt := some now }

theorem any_sid_map_pres (db : DBState) (sid : String)
    (f : SessionRow → SessionRow) (hf : ∀ r, (f r).sessionId = r.sessionId) :
    (db.map f).any (fun r => r.sessionId == sid)
      = db.any (fun r => r.sessionId == sid) := by
  rw [List.any_map]
  have : ((fun r => r.sessionId == sid) ∘ f)
      = (fun r : SessionRow => r.sessionId == sid) := by
    funext r
    simp [Function.comp, hf r]
  rw [this]

/-- EndSession on an active session: the call succeeds, logs any injected
teardown failures, and maps exactly the rows of that session id to their
end-stamped version. -/
theorem endSession_active (now : Nat) (db : DBState) (sid : String)
    (a b c : Bool) (s : SessionRow)
    (hs : DB.GetSession db sid = some s)
    (hactive : s.status = SessionStatus.active) :
    Manager.EndSession now db sid a b c
      = (db.map (fun r => if r.sessionId == sid then endStamp now r else r),
          (if a then ["Failed to stop Claude process"] else [])
            ++ (if b then ["Failed to commit changes"] else [])
            ++ (if c then ["Failed to cleanup work tree"] else []),
          Except.ok ()) := by
  have hany := any_sid_of_getSession_some db sid s hs
  rw [Manager.EndSession, hs]
  simp only [if_neg (fun hne : s.status ≠ SessionStatus.active => hne hactive)]
  rw [DB.UpdateSessionStatus, if_pos hany]
  simp only []
  have hpres : ∀ r : SessionRow,
      ((fun r : SessionRow =>
        if r.sessionId == sid then
          { r with
              status := SessionStatus.ending
              updatedAt := now
              endedAt :=
                if SessionStatus.ending = SessionStatus.ended then some now
                else r.endedAt }
        else r) r).sessionId = r.sessionId := by
    intro r
    by_cases hr : r.sessionId = sid
    · simp [hr]
    · simp [hr]
  rw [DB.UpdateSessionStatus, if_pos (by rw [any_sid_map_pres db sid _ hpres]; exact hany)]
  simp only [List.map_map, Prod.mk.injEq, and_true]
  apply List.map_eq_map_iff.mpr
  intro r hrmem
  by_cases hr : r.sessionId = sid
  · simp [Function.comp, hr, endStamp]
  · simp [Function.comp, hr]

/-- Claim C3: ending an active session always succeeds and leaves the session
in status ended — never stuck in ending — no matter which of the three
teardown steps (process stop, commit-and-push, directory cleanup) fail; their
failures are only logged. -/
theorem endSession_reachesEnded (now : Nat) (db : DBState) (sid : String)
    (a b c : Bool) (s : SessionRow)
    (hs : DB.GetSession db sid = some s)
    (hactive : s.status = SessionStatus.active) :
    (Manager.EndSession now db sid a b c).snd.snd = Except.ok ()
    ∧ ∀ r ∈ (Manager.EndSession now db sid a b c).fst,
        r.sessionId = sid → r.status = SessionStatus.ended := by
  rw [endSession_active now db sid a b c s hs hactive]
  refine ⟨rfl, ?_⟩
  intro r hr hrsid
  rcases List.mem_map.mp hr with ⟨r0, hr0, hmap⟩
  by_cases h0 : r0.sessionId = sid
  · rw [show (if r0.sessionId == sid then endStamp now r0 else r0)
        = endStamp now r0 from by simp [h0]] at hmap
    rw [← hmap]
    rfl
  · rw [show (if r0.sessionId == sid then endStamp now r0 else r0) = r0
        from by simp [h0]] at hmap
    rw [← hmap] at hrsid
    exact absurd hrsid h0

/-- Witness for C3: ending the active sample session with a failing
commit-and-push step still returns success and lands on status ended. -/
theorem endSession_reachesEnded_wit :
    (Manager.EndSession 7 [rowA] "s1" false true false).snd.snd
        = Except.ok ()
    ∧ ∀ r ∈ (Manager.EndSession 7 [rowA] "s1" false true false).fst,
        r.sessionId = "s1" → r.status = SessionStatus.ended :=
  endSession_reachesEnded 7 [rowA] "s1" false true false rowA rfl rfl

/-! Claim C4: at most one live session per chat scope. -/

/-- A session row counted by the invariant: status starting or active. -/
def liveRow (r : SessionRow) : Prop :=
  r.status = SessionStatus.starting ∨ r.status = SessionStatus.active

/-- The schema constraint UNIQUE(slack_channel_id, slack_thread_ts), as a
predicate on table states. -/
def chanThreadUniqueP (db : DBState) : Prop :=
  db.Pairwise (fun x y => ¬(x.channelId = y.channelId ∧ x.threadTS = y.threadTS))

/-- The claimed invariant: at most one row with status starting or active per
(workspace, channel, thread) triple. -/
def atMostOneLive (db : DBState) : Prop :=
  db.Pairwise (fun x y =>
    ¬(liveRow x ∧ liveRow y ∧ x.workspaceId = y.workspaceId
      ∧ x.channelId = y.channelId ∧ x.threadTS = y.threadTS))

theorem chanThread_imp (db : DBState) (h : chanThreadUniqueP db) :
    atMostOneLive db :=
  h.imp (fun hxy hcon => hxy ⟨hcon.2.2.2.1, hcon.2.2.2.2⟩)

theorem chanThreadOK_iff (db : DBState) :
    DB.chanThreadOK db = true ↔ chanThreadUniqueP db := by
  induction db with
  | nil =>
    constructor
    · intro _; exact List.Pairwise.nil
    · intro _; rfl
  | cons r rest ih =>
    constructor
    · intro h
      rw [DB.chanThreadOK, Bool.and_eq_true] at h
      refine List.Pairwise.cons ?_ (ih.mp h.2)
      intro q hq hcon
      have hq2 : rest.any (fun q =>
          q.channelId == r.channelId && q.threadTS == r.threadTS) = true := by
        rw [List.any_eq_true]
        exact ⟨q, hq, by simp [hcon.1, hcon.2]⟩
      rw [hq2] at h
      exact absurd h.1 (by decide)
    · intro h
      rcases List.pairwise_cons.mp h with ⟨hhead, htail⟩
      rw [DB.chanThreadOK, Bool.and_eq_true]
      refine ⟨?_, ih.mpr htail⟩
      rw [Bool.not_eq_true']
      rw [List.any_eq_false]
      intro q hq hcon
      rw [Bool.and_eq_true, beq_iff_eq, beq_iff_eq] at hcon
      exact hhead q hq ⟨hcon.1.symm, hcon.2.symm⟩

theorem createSession_chanThreadUnique (db : DBState) (row : SessionRow)
    (db2 : DBState) (h : DB.CreateSession db row = Except.ok db2)
    (hdb : chanThreadUniqueP db) : chanThreadUniqueP db2 := by
  rw [DB.CreateSession] at h
  by_cases h1 : db.any (fun r => r.branchName == row.branchName) = true
  · rw [if_pos h1] at h; cases h
  · rw [if_neg h1] at h
    by_cases h2 : db.any (fun r => r.workTreePath == row.workTreePath) = true
    · rw [if_pos h2] at h; cases h
    · rw [if_neg h2] at h
      by_cases h3 : db.any (fun r =>
          r.channelId == row.channelId && r.threadTS == row.threadTS) = true
      · rw [if_pos h3] at h; cases h
      · rw [if_neg h3] at h
        cases h
        rw [chanThreadUniqueP, List.pairwise_append]
        refine ⟨hdb, List.pairwise_singleton _ _, ?_⟩
        intro x hx y hy
        rw [List.mem_singleton] at hy
        subst hy
        intro hcon
        apply h3
        rw [List.any_eq_true]
        exact ⟨x, hx, by simp [hcon.1, hcon.2]⟩

theorem updateThread_chanThreadUnique (now : Nat) (db : DBState)
    (sid ts : String) (db2 : DBState)
    (h : DB.UpdateSessionThread now db sid ts = Except.ok db2) :
    chanThreadUniqueP db2 := by
  rw [DB.UpdateSessionThread] at h
  by_cases h1 : db.any (fun r => r.sessionId == sid) = true
  · rw [if_pos h1] at h
    by_cases h2 : DB.chanThreadOK (db.map (fun r =>
        if r.sessionId == sid then
          { r with threadTS := ts, updatedAt := now }
        else r)) = true
    · rw [if_pos h2] at h
      cases h
      exact (chanThreadOK_iff _).mp h2
    · rw [if_neg h2] at h; cases h
  · rw [if_neg h1] at h; cases h

/-- Claim C4: under the schema constraint UNIQUE(slack_channel_id,
slack_thread_ts) — which SQLite enforces on every insert and update — at most
one session row with status starting or active exists per (workspace, channel,
thread) triple, and both session creation and moving a session's chat binding
(UpdateSessionThread) preserve this invariant. -/
theorem sessionScopeInvariant (db : DBState) (h : chanThreadUniqueP db) :
    atMostOneLive db
    ∧ (∀ (now : Nat) (req : CreateSessionRequest) (sid : String)
        (db2 : DBState) (row : SessionRow),
        Manager.CreateSession now db req sid = Except.ok (db2, row)
          → atMostOneLive db2)
    ∧ (∀ (now : Nat) (sid ts : String) (db2 : DBState),
        DB.UpdateSessionThread now db sid ts = Except.ok db2
          → atMostOneLive db2) := by
  refine ⟨chanThread_imp db h, ?_, ?_⟩
  · intro now req sid db2 row hc
    rw [Manager.CreateSession] at hc
    split at hc
    · cases hc
    · split at hc
      · cases hc
      · split at hc
        · cases hc
        · rename_i heq
          cases hc
          exact chanThread_imp _
            (createSession_chanThreadUnique db _ _ heq h)
  · intro now sid ts db2 hu
    exact chanThread_imp _ (updateThread_chanThreadUnique now db sid ts db2 hu)

/-- Witness for C4: the singleton table satisfies the constraint, hence the
invariant. -/
theorem sessionScopeInvariant_wit : atMostOneLive [rowA] :=
  (sessionScopeInvariant [rowA]
    (List.pairwise_singleton _ _)).1

/-! Claim C2: the idle sweep. -/

theorem getSession_of_mem_nodup (db : DBState) :
    (db.map (fun r => r.sessionId)).Nodup → ∀ s ∈ db,
      DB.GetSession db s.sessionId = some s := by
  induction db with
  | nil => intro _ s hs; cases hs
  | cons r rest ih =>
    intro hnd s hs
    rw [List.map_cons, List.nodup_cons] at hnd
    rcases List.mem_cons.mp hs with hs | hs
    · subst hs
      rw [getSession_cons, if_pos rfl]
    · rw [getSession_cons]
      by_cases hr : r.sessionId = s.sessionId
      · exfalso
        apply hnd.1
        rw [hr]
        exact List.mem_map.mpr ⟨s, hs, rfl⟩
      · rw [if_neg hr]
        exact ih hnd.2 s hs

theorem sweepList_eq (now T : Nat) (f : String → Bool × Bool × Bool) :
    ∀ (L : List SessionRow) (db : DBState),
      (db.map (fun r => r.sessionId)).Nodup →
      (∀ s ∈ L, s ∈ db ∧ s.status = SessionStatus.active) →
      (L.map (fun s => s.sessionId)).Nodup →
      Manager.sweepList now T f db L
        = db.map (fun r =>
            if L.any (fun s => s.sessionId == r.sessionId)
                && decide (T < now - r.updatedAt)
            then endStamp now r else r) := by
  intro L
  induction L with
  | nil =>
    intro db hnd hL hLnd
    rw [Manager.sweepList]
    simp
  | cons s rest ih =>
    intro db hnd hL hLnd
    have hsdb := (hL s (List.mem_cons_self s rest)).1
    have hsact := (hL s (List.mem_cons_self s rest)).2
    have hfind : DB.GetSession db s.sessionId = some s :=
      getSession_of_mem_nodup db hnd s hsdb
    rw [List.map_cons, List.nodup_cons] at hLnd
    have hrest : rest.any (fun t => t.sessionId == s.sessionId) = false := by
      rw [List.any_eq_false]
      intro t ht hcon
      rw [beq_iff_eq] at hcon
      exact hLnd.1 (hcon ▸ List.mem_map.mpr ⟨t, ht, rfl⟩)
    rw [Manager.sweepList]
    by_cases hstale : T < now - s.updatedAt
    · rw [if_pos hstale,
        endSession_active now db s.sessionId _ _ _ s hfind hsact]
      have hgpres : ∀ r : SessionRow,
          ((fun r : SessionRow =>
            if r.sessionId == s.sessionId then endStamp now r else r) r).sessionId
            = r.sessionId := by
        intro r
        by_cases hr : r.sessionId = s.sessionId
        · simp [hr, endStamp]
        · simp [hr]
      have hnd2 : ((db.map (fun r =>
          if r.sessionId == s.sessionId then endStamp now r else r)).map
            (fun r => r.sessionId)).Nodup := by
        rw [List.map_map]
        rw [show ((fun r : SessionRow => r.sessionId)
            ∘ (fun r : SessionRow =>
              if r.sessionId == s.sessionId then endStamp now r else r))
            = fun r : SessionRow => r.sessionId from funext fun r => hgpres r]
        exact hnd
      have hmem2 : ∀ t ∈ rest, t ∈ db.map (fun r =>
          if r.sessionId == s.sessionId then endStamp now r else r)
          ∧ t.status = SessionStatus.active := by
        intro t ht
        have htdb := (hL t (List.mem_cons_of_mem s ht)).1
        have htact := (hL t (List.mem_cons_of_mem s ht)).2
        have htsid : t.sessionId ≠ s.sessionId := by
          intro hcon
          exact hLnd.1 (hcon ▸ List.mem_map.mpr ⟨t, ht, rfl⟩)
        exact ⟨List.mem_map.mpr ⟨t, htdb, by simp [htsid]⟩, htact⟩
      rw [ih _ hnd2 hmem2 hLnd.2, List.map_map]
      apply List.map_eq_map_iff.mpr
      intro r hrdb
      by_cases hr : r.sessionId = s.sessionId
      · have hrs : r = s := List.inj_on_of_nodup_map hnd hrdb hsdb hr
        subst hrs
        simp [Function.comp, endStamp, hrest, hstale]
      · have hr2 : ¬ s.sessionId = r.sessionId := fun hcon => hr hcon.symm
        simp [Function.comp, hr, hr2, List.any_cons]
    · rw [if_neg hstale]
      rw [ih db hnd (fun t ht => hL t (List.mem_cons_of_mem s ht)) hLnd.2]
      apply List.map_eq_map_iff.mpr
      intro r hrdb
      by_cases hr : r.sessionId = s.sessionId
      · have hrs : r = s := List.inj_on_of_nodup_map hnd hrdb hsdb hr
        subst hrs
        simp [hrest, hstale]
      · have hr2 : ¬ s.sessionId = r.sessionId := fun hcon => hr hcon.symm
        simp [hr, hr2, List.any_cons]

/-- Claim C2 (amended): one run of the idle sweep with threshold T ends — with
a stamped end timestamp — exactly the sessions of status active whose age
now - updated_at strictly exceeds T, and leaves every other row untouched: in
particular sessions updated within T, but also stale sessions still in
starting or ending status, which the sweep never lists because
GetAllActiveSessions filters on status = active only.  Session ids are assumed
pairwise distinct, as the random id generation guarantees. -/
theorem idleSweep_endsStaleActive (now T : Nat) (db : DBState)
    (f : String → Bool × Bool × Bool)
    (hnd : (db.map (fun r => r.sessionId)).Nodup) :
    Manager.cleanupIdleSessions now T db f
      = db.map (fun r =>
          if r.status == SessionStatus.active && decide (T < now - r.updatedAt)
          then endStamp now r else r) := by
  have hmem : ∀ s ∈ DB.GetAllActiveSessions db,
      s ∈ db ∧ s.status = SessionStatus.active := by
    intro s hs
    rw [DB.GetAllActiveSessions, List.mem_filter] at hs
    exact ⟨hs.1, by simpa using hs.2⟩
  have hnd2 : ((DB.GetAllActiveSessions db).map (fun s => s.sessionId)).Nodup :=
    List.Nodup.sublist (List.Sublist.map _ (List.filter_sublist db)) hnd
  rw [Manager.cleanupIdleSessions,
    sweepList_eq now T f (DB.GetAllActiveSessions db) db hnd hmem hnd2]
  apply List.map_eq_map_iff.mpr
  intro r hrdb
  have hany : (DB.GetAllActiveSessions db).any
      (fun s => s.sessionId == r.sessionId) = (r.status == SessionStatus.active) := by
    by_cases hact : r.status = SessionStatus.active
    · rw [show (r.status == SessionStatus.active) = true from by simp [hact]]
      rw [List.any_eq_true]
      refine ⟨r, ?_, by simp⟩
      rw [DB.GetAllActiveSessions, List.mem_filter]
      exact ⟨hrdb, by simp [hact]⟩
    · rw [show (r.status == SessionStatus.active) = false from by simp [hact]]
      rw [List.any_eq_false]
      intro t ht hcon
      rw [DB.GetAllActiveSessions, List.mem_filter] at ht
      rw [beq_iff_eq] at hcon
      have htr : t = r := List.inj_on_of_nodup_map hnd ht.1 hrdb hcon
      subst htr
      exact hact (by simpa using ht.2)
  rw [hany]

/-- Witness for C2 (amended): with threshold 3600 at time 4000, the active
session A updated at time 0 is ended and the active session B updated at time
3990 is untouched. -/
theorem idleSweep_endsStaleActive_wit :
    Manager.cleanupIdleSessions 4000 3600 [rowA, rowB]
        (fun _ => (false, false, false))
      = [endStamp 4000 rowA, rowB] := by
  rw [idleSweep_endsStaleActive 4000 3600 [rowA, rowB]
    (fun _ => (false, false, false)) (by decide)]
  rfl

/-- Counterexample for C2 as stated: a session in the non-terminal status
starting, idle for 4000 seconds against a 3600-second threshold, is NOT ended
by the sweep — the sweep only lists rows whose status is active. -/
theorem idleSweep_skipsStarting_cex :
    Manager.cleanupIdleSessions 4000 3600 [rowStarting]
        (fun _ => (false, false, false))
      = [rowStarting]
    ∧ rowStarting.status = SessionStatus.starting
    ∧ 3600 < 4000 - rowStarting.updatedAt := by
  refine ⟨rfl, rfl, by decide⟩

end CB
